import Mathlib

/-
Verification development for the "background" code-structure analyzer.

The repository has two parallel implementations of its core:
  * src/src/code_analyzer.py + src/src/code_element.py (modular variant;
    CodeElement there declares only class-level type annotations, with no
    __init__ and no dataclass decorator, so CodeElement(...) raises TypeError)
  * src/scripts/generator.py (monolithic variant; CodeElement is a @dataclass,
    so construction succeeds)
and a splitter in src/main_window.py (duplicated in generator.py).

The Python parser (CPython's ast.parse) is external to the repository, so the
embedding works over the abstract syntax tree it produces: a PyModule value
stands for the parse of a syntactically valid source, and parse failures are
passed around as the error arm of an Except.  Each statement node carries the
line number and the exact source segment ast.get_source_segment would return
for it.  String-level scanning (the TypeScript path, str.strip, str.split,
os.path helpers) is modeled character by character on the ASCII fragment the
claims exercise.
-/

/-- Whitespace characters stripped by Python's str.strip() and matched by the
regular-expression class \s (ASCII range). -/
def pyWsChar (c : Char) : Bool :=
  c = ' ' || c = '\t' || c = '\n' || c = '\r' || c = '\x0b' || c = '\x0c'

/-- Word characters matched by the regular-expression class \w (ASCII range). -/
def wordChar (c : Char) : Bool :=
  c.isAlphanum || c = '_'

/-- Does the second list start with the first one. -/
def prefixChars : List Char → List Char → Bool
  | [], _ => true
  | _ :: _, [] => false
  | p :: ps, c :: cs => p == c && prefixChars ps cs

/-- Does the pattern occur somewhere in the list (Python's `pat in s`). -/
def subOfChars (pat : List Char) : List Char → Bool
  | [] => pat.isEmpty
  | c :: rest => prefixChars pat (c :: rest) || subOfChars pat rest

/-- Python's substring test `pat in s`. -/
def containsSub (s pat : String) : Bool := subOfChars pat.data s.data

/-- Helper for splitLines: accumulates the current line (reversed). -/
def splitLinesAux : List Char → List Char → List String
  | [], acc => [String.mk acc.reverse]
  | c :: cs, acc =>
    if c = '\n' then String.mk acc.reverse :: splitLinesAux cs []
    else splitLinesAux cs (c :: acc)

/-- Python's content.split('\n'): "".split('\n') = [""], trailing newline
yields a trailing empty line. -/
def splitLines (s : String) : List String := splitLinesAux s.data []

/-- Python's str.strip(): removes whitespace at both ends. -/
def pyStrip (s : String) : String :=
  String.mk (((s.data.dropWhile pyWsChar).reverse.dropWhile pyWsChar).reverse)

/-- Python's str.lower() on the ASCII range. -/
def pyLower (s : String) : String := String.mk (s.data.map Char.toLower)

/-- Python's sep.join(xs). -/
def pyJoin (sep : String) : List String → String
  | [] => ""
  | [x] => x
  | x :: y :: rest => x ++ sep ++ pyJoin sep (y :: rest)

/-- Python's s.startswith(pre). -/
def pyStartsWith (s pre : String) : Bool := prefixChars pre.data s.data

/-- Python's s.endswith(suf). -/
def pyEndsWith (s suf : String) : Bool := prefixChars suf.data.reverse s.data.reverse

/-- Index of the last occurrence of a character (Python's str.rfind, as an
Option instead of -1). -/
def lastIdxOf (cs : List Char) (c : Char) : Option Nat :=
  (cs.foldl (fun (st : Nat × Option Nat) x =>
    (st.1 + 1, if x = c then some st.1 else st.2)) (0, none)).2

/-- The index where the extension starts according to posixpath.splitext:
position of the last dot, provided it comes after the last slash and the base
name has a non-dot character before it; otherwise the string length (no
extension). -/
def splitextIdx (p : String) : Nat :=
  let cs := p.data
  match lastIdxOf cs '.' with
  | none => cs.length
  | some di =>
    let si : Nat := match lastIdxOf cs '/' with | none => 0 | some j => j + 1
    let sepOk : Bool := match lastIdxOf cs '/' with | none => true | some j => decide (j < di)
    if sepOk && ((cs.drop si).take (di - si)).any (fun c => !(c == '.')) then di
    else cs.length

/-- The extension part of os.path.splitext(p). -/
def splitextExt (p : String) : String := String.mk (p.data.drop (splitextIdx p))

/-- The root part of os.path.splitext(p). -/
def splitextRoot (p : String) : String := String.mk (p.data.take (splitextIdx p))

/-- posixpath.basename: everything after the last slash. -/
def pyBasename (p : String) : String :=
  match lastIdxOf p.data '/' with
  | none => p
  | some j => String.mk (p.data.drop (j + 1))

/-- posixpath.dirname: everything up to the last slash, with trailing slashes
stripped unless the result is all slashes. -/
def pyDirname (p : String) : String :=
  match lastIdxOf p.data '/' with
  | none => ""
  | some j =>
    let head := p.data.take (j + 1)
    if head.all (fun c => c == '/') then String.mk head
    else String.mk ((head.reverse.dropWhile (fun c => c == '/')).reverse)

/-- posixpath.join for the two-argument calls the splitter makes. -/
def pyPathJoin (b f : String) : String :=
  if f.data.head? = some '/' then f
  else if b.data = [] then f
  else if b.data.getLast? = some '/' then b ++ f
  else b ++ "/" ++ f

/-- The record type both analyzers produce (fields of CodeElement). -/
structure CodeElement where
  name : String
  type : String
  decorators : List String
  imports : List String
  methods : List String
  line_number : Nat
  dependencies : List String
deriving Repr, DecidableEq

/-- A decorator expression on a class: a plain name (ast.Name), a call form, or
an attribute access.  The analyzer keeps only the plain-name ones. -/
inductive PyDec where
  | dname (id : String)
  | dcall (txt : String)
  | dattr (txt : String)

/-- Statements of the embedded Python AST.  Each node carries its 1-based line
number and the exact source segment ast.get_source_segment returns for it.
Class and function bodies may contain further statements (so nested classes
and nested imports are expressible); `other` covers the remaining statement
kinds, recording the identifier names (ast.Name nodes) they reference. -/
inductive PyStmt where
  | classDef (name : String) (decorators : List PyDec) (body : List PyStmt)
      (lineno : Nat) (seg : String)
  | funcDef (name : String) (body : List PyStmt) (lineno : Nat) (seg : String)
  | importStmt (names : List String) (lineno : Nat) (seg : String)
  | importFrom (modName : String) (names : List String) (lineno : Nat) (seg : String)
  | other (names : List String) (lineno : Nat) (seg : String)

/-- The parse of a whole file (ast.Module). -/
structure PyModule where
  body : List PyStmt

/-- The child statements ast.iter_child_nodes reaches from a statement (only
class and function bodies can hold further statements in Python). -/
def children : PyStmt → List PyStmt
  | .classDef _ _ body _ _ => body
  | .funcDef _ body _ _ => body
  | _ => []

mutual
/-- Number of statement nodes in a statement's subtree, itself included. -/
def stmtSize : PyStmt → Nat
  | .classDef _ _ body _ _ => 1 + listSize body
  | .funcDef _ body _ _ => 1 + listSize body
  | .importStmt _ _ _ => 1
  | .importFrom _ _ _ _ => 1
  | .other _ _ _ => 1
/-- Number of statement nodes in a forest. -/
def listSize : List PyStmt → Nat
  | [] => 0
  | s :: r => stmtSize s + listSize r
end

/-- Fuel-driven breadth-first traversal; with fuel at least the number of
nodes it performs exactly the queue-based loop of ast.walk. -/
def walkAux : Nat → List PyStmt → List PyStmt
  | _, [] => []
  | 0, q => q
  | fuel + 1, s :: rest => s :: walkAux fuel (rest ++ children s)

/-- ast.walk from the Module node, restricted to statement nodes (the Module
node itself is dropped; expression nodes contain no statements, so the
statement subsequence of the real walk is exactly this breadth-first order). -/
def walkStmts (q : List PyStmt) : List PyStmt := walkAux (listSize q) q

/-- Which of the two parallel implementations is running.  In `modular`
(src/src), CodeElement declares only class-level annotations — no __init__, no
dataclass decorator — so CodeElement(name=..., ...) raises TypeError.  In
`script` (src/scripts/generator.py) CodeElement is a @dataclass and
construction succeeds. -/
inductive Variant where
  | modular
  | script
deriving Repr, DecidableEq

/-- The Python exceptions the analyzer code can raise to its caller. -/
inductive PyFault where
  | ioError
  | attributeError
  | indexError
  | typeError
deriving Repr, DecidableEq

/-- CodeElement(...) with keyword arguments: succeeds in the script variant,
raises TypeError in the modular variant (no constructor is defined there). -/
def mkElement (v : Variant) (e : CodeElement) : Except PyFault CodeElement :=
  match v with
  | .script => .ok e
  | .modular => .error .typeError

/-- Name of a plain-name decorator (d.id when isinstance(d, ast.Name)). -/
def decName : PyDec → Option String
  | .dname i => some i
  | _ => none

mutual
/-- Identifier names (ast.Name nodes) occurring in a statement's subtree; the
plain-name decorators of a class are Name nodes and are included. -/
def stmtNames : PyStmt → List String
  | .classDef _ decs body _ _ => decs.filterMap decName ++ listNames body
  | .funcDef _ body _ _ => listNames body
  | .importStmt _ _ _ => []
  | .importFrom _ _ _ _ => []
  | .other ns _ _ => ns
/-- Identifier names occurring in a forest of statements. -/
def listNames : List PyStmt → List String
  | [] => []
  | s :: r => stmtNames s ++ listNames r
end

/-- _get_dependencies: every ast.Name id in the node's subtree, passed through
list(set(...)).  The set iteration order is unspecified in Python; the model
fixes one deduplicated order. -/
def _get_dependencies (s : PyStmt) : List String := (stmtNames s).dedup

/-- _get_imports: walk the whole tree; ast.Import contributes the module names
of its aliases, ast.ImportFrom contributes one formatted line. -/
def _get_imports (m : PyModule) : List String :=
  (walkStmts m.body).foldl
    (fun acc node =>
      match node with
      | .importStmt names _ _ => acc ++ names
      | .importFrom modName names _ _ =>
          acc ++ ["from " ++ modName ++ " import " ++ pyJoin ", " names]
      | _ => acc) []

/-- Names of the direct-child function definitions of a class body. -/
def directMethods (body : List PyStmt) : List String :=
  body.filterMap (fun s =>
    match s with
    | .funcDef n _ _ _ => some n
    | _ => none)

/-- The CodeElement the Python path builds for one class node (the argument
tuple of the CodeElement(...) call in _analyze_python). -/
def pyRecord (m : PyModule) (name : String) (decs : List PyDec)
    (body : List PyStmt) (ln : Nat) (sg : String) : CodeElement :=
  ⟨name, "class", decs.filterMap decName, _get_imports m, directMethods body,
    ln, _get_dependencies (PyStmt.classDef name decs body ln sg)⟩

/-- The for-loop of _analyze_python over ast.walk: appends one element per
ClassDef; a TypeError from CodeElement(...) aborts the loop, is caught by the
surrounding handler, and the elements accumulated so far are returned. -/
def pyLoop (v : Variant) (m : PyModule) : List PyStmt → List CodeElement → List CodeElement
  | [], acc => acc
  | PyStmt.classDef n d b l g :: rest, acc =>
    (match mkElement v (pyRecord m n d b l g) with
     | .ok e => pyLoop v m rest (acc ++ [e])
     | .error _ => acc)
  | _ :: rest, acc => pyLoop v m rest acc

/-- _analyze_python: ast.parse the content (given here as the parse outcome);
on a parse failure the exception is caught, logged, and the empty list is
returned; otherwise walk the tree collecting one element per ClassDef. -/
def _analyze_python (v : Variant) (tree : Except String PyModule) : List CodeElement :=
  match tree with
  | .error _ => []
  | .ok m => pyLoop v m (walkStmts m.body) []

/-- The 'angular' pattern table, in dict insertion order.  Each regular
expression is a literal string, so re.search is a substring test. -/
def angularPatterns : List (String × String) :=
  [("component", "@Component("), ("service", "@Injectable("),
   ("module", "@NgModule("), ("pipe", "@Pipe(")]

/-- Consume a literal from the front, returning the remainder on success. -/
def dropLit : List Char → List Char → Option (List Char)
  | [], cs => some cs
  | _ :: _, [] => none
  | p :: ps, c :: cs => if c = p then dropLit ps cs else none

/-- Consume the regex fragment \s+ (at least one whitespace character). -/
def dropWs1 (cs : List Char) : Option (List Char) :=
  if (cs.takeWhile pyWsChar).isEmpty then none else some (cs.dropWhile pyWsChar)

/-- Consume the regex fragment \w+ and return its text. -/
def takeWord1 (cs : List Char) : Option String :=
  let w := cs.takeWhile wordChar
  if w.isEmpty then none else some (String.mk w)

/-- Match the regex fragment class\s+(\w+) at this position. -/
def matchClassName (cs : List Char) : Option String :=
  match dropLit "class".data cs with
  | none => none
  | some r1 =>
    match dropWs1 r1 with
    | none => none
    | some r2 => takeWord1 r2

/-- Match the regex fragment export\s+class\s+(\w+) at this position. -/
def matchExportClassName (cs : List Char) : Option String :=
  match dropLit "export".data cs with
  | none => none
  | some r1 =>
    match dropWs1 r1 with
    | none => none
    | some r2 =>
      match dropLit "class".data r2 with
      | none => none
      | some r3 =>
        match dropWs1 r3 with
        | none => none
        | some r4 => takeWord1 r4

/-- re.search scanning of the alternation for _extract_name: at each position,
left to right, try the class branch then the export-class branch. -/
def searchClassName : List Char → Option String
  | [] => none
  | c :: rest =>
    match matchClassName (c :: rest) with
    | some n => some n
    | none =>
      match matchExportClassName (c :: rest) with
      | some n => some n
      | none => searchClassName rest

/-- _extract_name: name captured by class\s+(\w+)|export\s+class\s+(\w+), or
the placeholder when neither branch matches anywhere in the line. -/
def _extract_name (line : String) : String :=
  (searchClassName line.data).getD "Unknown"

/-- _extract_imports: every line whose stripped form starts with "import " or
"from ", stripped, in file order. -/
def _extract_imports (content : String) : List String :=
  (splitLines content).foldl
    (fun acc line =>
      let t := pyStrip line
      if pyStartsWith t "import " || pyStartsWith t "from " then acc ++ [t]
      else acc) []

/-- Match, at one position, the tail of the method regex after the optional
access modifier: \s* \w+ \s* \( [^)]* \) \s* followed by an opening brace.
Returns the number of characters consumed. -/
def matchMethodTail (cs : List Char) : Option Nat :=
  let s1 := cs.dropWhile pyWsChar
  let w := s1.takeWhile wordChar
  if w.isEmpty then none
  else
    let s2 := (s1.dropWhile wordChar).dropWhile pyWsChar
    match s2 with
    | '(' :: r1 =>
      (match r1.dropWhile (fun c => !(c == ')')) with
       | ')' :: r2 =>
         (match r2.dropWhile pyWsChar with
          | '{' :: r3 => some (cs.length - r3.length)
          | _ => none)
       | _ => none)
    | _ => none

/-- Match the whole method regex (?:public|private|protected)?\s*\w+\s*\([^)]*\)\s*
followed by an opening brace at one position; regex alternation order: the
three modifiers, then the empty option.  Returns the number of characters
consumed. -/
def matchMethodAt (cs : List Char) : Option Nat :=
  let tryMod := fun (m : String) =>
    match dropLit m.data cs with
    | some rest => (matchMethodTail rest).map (fun k => m.data.length + k)
    | none => none
  match tryMod "public" with
  | some n => some n
  | none =>
    match tryMod "private" with
    | some n => some n
    | none =>
      match tryMod "protected" with
      | some n => some n
      | none => matchMethodTail cs

/-- re.finditer over the content: scan left to right, non-overlapping matches,
resuming after each match; each match is stripped.  Fuel is the content
length, enough because every step consumes at least one character. -/
def finditerMethods : Nat → List Char → List String
  | 0, _ => []
  | _, [] => []
  | fuel + 1, c :: rest =>
    match matchMethodAt (c :: rest) with
    | some n =>
      pyStrip (String.mk ((c :: rest).take n)) ::
        finditerMethods fuel ((c :: rest).drop n)
    | none => finditerMethods fuel rest

/-- _extract_methods: all matches of the method pattern over the whole file. -/
def _extract_methods (content : String) : List String :=
  finditerMethods content.data.length content.data

/-- Inner loop of _analyze_typescript for one line: try each angular pattern
in table order; on a match, look up the following line (IndexError past the
end), extract the name from it and construct the CodeElement (TypeError in the
modular variant). -/
def tsScanPats (v : Variant) (lines : List String) (content : String) (i : Nat)
    (line : String) :
    List (String × String) → List CodeElement → Except PyFault (List CodeElement)
  | [], acc => .ok acc
  | (ptype, pat) :: ps, acc =>
    if containsSub line pat then
      match lines.get? (i + 1) with
      | none => .error .indexError
      | some nextLine =>
        match mkElement v ⟨_extract_name nextLine, ptype, [pyStrip line],
            _extract_imports content, _extract_methods content, i + 1, []⟩ with
        | .ok e => tsScanPats v lines content i line ps (acc ++ [e])
        | .error er => .error er
    else tsScanPats v lines content i line ps acc

/-- Outer loop of _analyze_typescript: enumerate the lines. -/
def tsScanLines (v : Variant) (lines : List String) (content : String) :
    Nat → List String → List CodeElement → Except PyFault (List CodeElement)
  | _, [], acc => .ok acc
  | i, line :: rest, acc =>
    match tsScanPats v lines content i line angularPatterns acc with
    | .ok acc2 => tsScanLines v lines content (i + 1) rest acc2
    | .error e => .error e

/-- _analyze_typescript: split into lines and scan them against the angular
table.  There is no exception handler here, so a fault propagates. -/
def _analyze_typescript (v : Variant) (content : String) :
    Except PyFault (List CodeElement) :=
  tsScanLines v (splitLines content) content 0 (splitLines content) []

/-- analyze_file: read the file (the outcome of open/read is the readRes
argument; a failure propagates as the raised OSError), then dispatch on the
extension.  The .js/.jsx arm calls self._analyze_javascript, a method that is
not defined on CodeAnalyzer in either variant, so it raises AttributeError. -/
def analyze_file (v : Variant) (filePath : String)
    (readRes : Except Unit String) (parse : String → Except String PyModule) :
    Except PyFault (List CodeElement) :=
  match readRes with
  | .error _ => .error .ioError
  | .ok content =>
    let ext := splitextExt filePath
    if ext = ".py" then .ok (_analyze_python v (parse content))
    else if ext = ".ts" || ext = ".tsx" then _analyze_typescript v content
    else if ext = ".js" || ext = ".jsx" then .error .attributeError
    else .ok []

/-- Is a statement a class definition (isinstance(node, ast.ClassDef)). -/
def isClassDef : PyStmt → Bool
  | .classDef _ _ _ _ _ => true
  | _ => false

/-- Is a statement an import statement (isinstance(node, (ast.Import,
ast.ImportFrom))). -/
def isImportStmt : PyStmt → Bool
  | .importStmt _ _ _ => true
  | .importFrom _ _ _ _ => true
  | _ => false

/-- The source segment ast.get_source_segment(source, node) returns. -/
def segOf : PyStmt → String
  | .classDef _ _ _ _ sg => sg
  | .funcDef _ _ _ sg => sg
  | .importStmt _ _ sg => sg
  | .importFrom _ _ _ sg => sg
  | .other _ _ sg => sg

/-- The name of a class-definition node (only used on such nodes). -/
def classNameOf : PyStmt → String
  | .classDef n _ _ _ _ => n
  | _ => ""

/-- _get_imported_names: for `import X, Y` the alias names are the module
names; for `from M import A, B` they are A and B; anything else gives none. -/
def _get_imported_names : PyStmt → List String
  | .importStmt names _ _ => names
  | .importFrom _ names _ _ => names
  | _ => []

/-- Loop body of _get_class_imports: an Import/ImportFrom node whose imported
names contain one occurring as a literal substring of the class's source
segment contributes its own source segment. -/
def classImportsStep (cls : PyStmt) (acc : List String) (node : PyStmt) : List String :=
  if isImportStmt node then
    if (_get_imported_names node).any (fun nm => containsSub (segOf cls) nm) then
      acc ++ [segOf node]
    else acc
  else acc

/-- _get_class_imports: walk the parsed source, accumulating the source
segments of the matching import statements in walk order. -/
def _get_class_imports (m : PyModule) (cls : PyStmt) : List String :=
  (walkStmts m.body).foldl (classImportsStep cls) []

/-- The content split_classes writes for one class:
"\n".join(imports + ["", class_content]). -/
def classFileContent (m : PyModule) (cls : PyStmt) : String :=
  pyJoin "\n" (_get_class_imports m cls ++ ["", segOf cls])

/-- The target path split_classes builds for one class:
os.path.join(base_path, base_name + "_" + name.lower() + ".py"). -/
def classFilePath (currentFile : String) (className : String) : String :=
  pyPathJoin (pyDirname currentFile)
    (splitextRoot (pyBasename currentFile) ++ "_" ++ pyLower className ++ ".py")

/-- Observable outcome of one split_classes call: the files written (path and
content, in order), the per-class warnings shown (class names whose write
failed), and the fatal error shown by the outer handler, if any. -/
structure SplitResult where
  writes : List (String × String)
  warnings : List String
  fatal : Option String
deriving Repr, DecidableEq

/-- The per-class loop of split_classes: each class is processed inside its
own try/except, so a failed write adds a warning and the loop continues with
the remaining classes.  Whether a write succeeds is the file-system oracle's
verdict on the target path. -/
def splitLoop (m : PyModule) (oracle : String → Bool) (currentFile : String) :
    List PyStmt → SplitResult → SplitResult
  | [], r => r
  | cls :: rest, r =>
    let path := classFilePath currentFile (classNameOf cls)
    if oracle path then
      splitLoop m oracle currentFile rest
        ⟨r.writes ++ [(path, classFileContent m cls)], r.warnings, r.fatal⟩
    else
      splitLoop m oracle currentFile rest
        ⟨r.writes, r.warnings ++ [classNameOf cls], r.fatal⟩

/-- split_classes: read the file, and when it ends in .py, parse it (a parse
failure is caught by the outer handler after zero writes), collect every
ClassDef in walk order, and write one file per class through the per-class
loop.  For a non-.py file nothing is written and no fault is signalled. -/
def split_classes (currentFile : String) (readRes : Except String String)
    (parse : String → Except String PyModule) (oracle : String → Bool) :
    SplitResult :=
  match readRes with
  | .error e => ⟨[], [], some e⟩
  | .ok content =>
    if pyEndsWith currentFile ".py" then
      match parse content with
      | .error e => ⟨[], [], some e⟩
      | .ok m =>
        splitLoop m oracle currentFile
          ((walkStmts m.body).filter isClassDef) ⟨[], [], none⟩
    else ⟨[], [], none⟩

mutual
/-- Depth-first, pre-order collection of every import statement in a
statement's subtree — textual file order, since the AST lists statements in
source order.  This is the specification-side notion of "the file's import
statements in file order"; the code's ast.walk is breadth-first instead. -/
def dfsImpStmt : PyStmt → List PyStmt
  | .classDef _ _ body _ _ => dfsImpList body
  | .funcDef _ body _ _ => dfsImpList body
  | .importStmt ns l g => [.importStmt ns l g]
  | .importFrom mn ns l g => [.importFrom mn ns l g]
  | .other _ _ _ => []
/-- Depth-first import collection over a forest. -/
def dfsImpList : List PyStmt → List PyStmt
  | [] => []
  | s :: r => dfsImpStmt s ++ dfsImpList r
end

/-- Modelled from the spec: the relevant-imports subset as the spec words it —
the import statements of the file in file order, filtered by the literal
substring test against the class's extracted source text. -/
def fileOrderRelevantImports (m : PyModule) (cls : PyStmt) : List String :=
  ((dfsImpList m.body).filter
    (fun node => (_get_imported_names node).any (fun nm => containsSub (segOf cls) nm))).map segOf

/-- Modelled from the spec: the per-class output content as the spec words it —
the relevant imports in file order, one per line, a blank line, then the
class segment. -/
def fileOrderClassContent (m : PyModule) (cls : PyStmt) : String :=
  pyJoin "\n" (fileOrderRelevantImports m cls ++ ["", segOf cls])

mutual
/-- No import statement anywhere in a statement's subtree, the statement
itself included. -/
def stmtImportFree : PyStmt → Bool
  | .classDef _ _ body _ _ => listImportFree body
  | .funcDef _ body _ _ => listImportFree body
  | .importStmt _ _ _ => false
  | .importFrom _ _ _ _ => false
  | .other _ _ _ => true
/-- No import statement anywhere in a forest. -/
def listImportFree : List PyStmt → Bool
  | [] => true
  | s :: r => stmtImportFree s && listImportFree r
end

/-- Every import of the module sits at top level: no statement's body hides
one. -/
def topLevelOnlyImports (m : PyModule) : Bool :=
  m.body.all (fun s => listImportFree (children s))

mutual
/-- Number of class-definition nodes in a statement's subtree, the statement
itself included — the N of the claim about the Python analysis. -/
def stmtClassCount : PyStmt → Nat
  | .classDef _ _ body _ _ => 1 + listClassCount body
  | .funcDef _ body _ _ => listClassCount body
  | .importStmt _ _ _ => 0
  | .importFrom _ _ _ _ => 0
  | .other _ _ _ => 0
/-- Number of class-definition nodes in a forest. -/
def listClassCount : List PyStmt → Nat
  | [] => 0
  | s :: r => stmtClassCount s + listClassCount r
end

/-- The element the script variant's Python loop emits for a statement: one
record per ClassDef, nothing for other nodes. -/
def scriptRec (m : PyModule) : PyStmt → Option CodeElement
  | .classDef n d b l g => some (pyRecord m n d b l g)
  | _ => none

/-- The inclusion test of _get_class_imports for one candidate import node:
some imported name occurs as a literal substring of the class's segment. -/
def relevantPred (cls node : PyStmt) : Bool :=
  (_get_imported_names node).any (fun nm => containsSub (segOf cls) nm)

/-- Test input: a Python module with exactly one class definition. -/
def demoMod : PyModule :=
  ⟨[.classDef "A" [] [.other [] 2 "pass"] 1 "class A:\n    pass"]⟩

/-- Test input: the class of c8cexMod, holding a nested import on its line 2. -/
def c8cexCls : PyStmt :=
  .classDef "A" [] [.importStmt ["b"] 2 "import b"] 1 "class A:\n    import b"

/-- Test input: a module whose first import (line 2) is nested inside the
class and whose second import (line 3) is top-level, so breadth-first walk
order and file order disagree. -/
def c8cexMod : PyModule := ⟨[c8cexCls, .importStmt ["a"] 3 "import a"]⟩

/-- Test input: a top-level-imports-only module for the amended C8 claim. -/
def c8wMod : PyModule :=
  ⟨[.importStmt ["os"] 1 "import os", .classDef "A" [] [] 2 "class A:\n    x = os"]⟩

/-- Test input: the class of c8wMod. -/
def c8wCls : PyStmt := .classDef "A" [] [] 2 "class A:\n    x = os"

/-- Test input: the class of c9cexMod, holding a nested import. -/
def c9cexCls : PyStmt :=
  .classDef "K" [] [.importStmt ["y"] 2 "import y"] 1 "class K:\n    import y"

/-- Test input: nested-import module for the C9 counterexample. -/
def c9cexMod : PyModule := ⟨[c9cexCls, .importStmt ["s"] 3 "import s"]⟩

/-- Test input: the class of c9wMod. -/
def c9wCls : PyStmt := .classDef "W" [] [] 2 "class W:\n    v = json"

/-- Test input: module with one top-level import relevant to its class. -/
def c9wMod : PyModule :=
  ⟨[.importStmt ["json"] 1 "import json", c9wCls]⟩

/-- Test input: first class of the two-class module used for the splitter. -/
def c7ClsA : PyStmt := .classDef "A" [] [] 1 "class A: pass"

/-- Test input: second class of the two-class module used for the splitter. -/
def c7ClsB : PyStmt := .classDef "B" [] [] 2 "class B: pass"

/-- Test input: a two-class module for the splitter's partial-failure claim. -/
def c7Mod : PyModule := ⟨[c7ClsA, c7ClsB]⟩

/-- Test oracle: writing succeeds only for the second class's target path. -/
def c7Oracle : String → Bool := fun p => p == "/tmp/mod_b.py"

/-- Test input: a two-class module with one import, for the imports
invariant. -/
def c4Mod : PyModule :=
  ⟨[.importStmt ["os"] 1 "import os",
    .classDef "A" [] [] 2 "class A: pass",
    .classDef "B" [] [] 3 "class B: pass"]⟩

theorem listSize_append (a b : List PyStmt) :
    listSize (a ++ b) = listSize a + listSize b := by
  induction a with
  | nil => simp [listSize]
  | cons s r ih =>
    simp [listSize, ih]
    omega

theorem stmtSize_children (s : PyStmt) : stmtSize s = 1 + listSize (children s) := by
  cases s <;> simp [stmtSize, children, listSize]

theorem walkStmts_nil : walkStmts [] = [] := rfl

theorem walkStmts_cons (s : PyStmt) (rest : List PyStmt) :
    walkStmts (s :: rest) = s :: walkStmts (rest ++ children s) := by
  have hs := stmtSize_children s
  have h : listSize (s :: rest) = listSize (rest ++ children s) + 1 := by
    simp [listSize, listSize_append]
    omega
  simp only [walkStmts, h, walkAux]

theorem string_data_append (a b : String) : (a ++ b).data = a.data ++ b.data := by
  cases a
  cases b
  rfl

theorem string_append_assoc (a b c : String) : a ++ b ++ c = a ++ (b ++ c):= by
  cases a
  cases b
  cases c
  show String.mk _ = String.mk _
  rw [List.append_assoc]

theorem string_append_empty (a : String) : a ++ "" = a := by
  cases a
  show String.mk _ = String.mk _
  rw [List.append_nil]

theorem pyJoin_append_last (sep : String) :
    ∀ (xs : List String) (a : String), xs ≠ [] →
      pyJoin sep (xs ++ [a]) = pyJoin sep xs ++ sep ++ a := by
  intro xs
  induction xs with
  | nil => intro a h; exact absurd rfl h
  | cons x rest ih =>
    intro a _
    cases rest with
    | nil => simp [pyJoin]
    | cons y r2 =>
      have h2 : (y :: r2) ≠ [] := by simp
      show pyJoin sep (x :: ((y :: r2) ++ [a])) = _
      rw [show pyJoin sep (x :: ((y :: r2) ++ [a])) =
            x ++ sep ++ pyJoin sep ((y :: r2) ++ [a]) from rfl]
      rw [ih a h2]
      rw [show pyJoin sep (x :: y :: r2) = x ++ sep ++ pyJoin sep (y :: r2) from rfl]
      rw [string_append_assoc (x ++ sep), string_append_assoc (x ++ sep)]

theorem listClassCount_append (a b : List PyStmt) :
    listClassCount (a ++ b) = listClassCount a + listClassCount b := by
  induction a with
  | nil => simp [listClassCount]
  | cons s r ih =>
    simp [listClassCount, ih]
    omega

theorem stmtClassCount_children (s : PyStmt) :
    stmtClassCount s = (if isClassDef s then 1 else 0) + listClassCount (children s) := by
  cases s <;> simp [stmtClassCount, isClassDef, children, listClassCount]

theorem walkStmts_classCount : ∀ (n : Nat) (q : List PyStmt), listSize q ≤ n →
    (walkStmts q).countP isClassDef = listClassCount q := by
  intro n
  induction n with
  | zero =>
    intro q h
    cases q with
    | nil => simp [walkStmts_nil, listClassCount]
    | cons s r =>
      exfalso
      have := stmtSize_children s
      simp [listSize] at h
      omega
  | succ k ih =>
    intro q h
    cases q with
    | nil => simp [walkStmts_nil, listClassCount]
    | cons s rest =>
      rw [walkStmts_cons, List.countP_cons]
      have hsz : listSize (rest ++ children s) ≤ k := by
        have := stmtSize_children s
        simp [listSize, listSize_append] at h ⊢
        omega
      rw [ih (rest ++ children s) hsz]
      rw [listClassCount_append]
      have h2 := stmtClassCount_children s
      simp [listClassCount]
      omega

theorem pyLoop_script (m : PyModule) : ∀ (q : List PyStmt) (acc : List CodeElement),
    pyLoop .script m q acc = acc ++ q.filterMap (scriptRec m) := by
  intro q
  induction q with
  | nil => intro acc; simp [pyLoop]
  | cons s rest ih =>
    intro acc
    cases s <;> simp [pyLoop, scriptRec, mkElement, List.filterMap_cons, ih]

theorem pyLoop_modular (m : PyModule) : ∀ (q : List PyStmt) (acc : List CodeElement),
    pyLoop .modular m q acc = acc := by
  intro q
  induction q with
  | nil => intro acc; simp [pyLoop]
  | cons s rest ih =>
    intro acc
    cases s <;> simp [pyLoop, mkElement, ih]

theorem length_filterMap_scriptRec (m : PyModule) : ∀ (l : List PyStmt),
    (l.filterMap (scriptRec m)).length = l.countP isClassDef := by
  intro l
  induction l with
  | nil => simp
  | cons s r ih =>
    cases s <;>
      simp [scriptRec, List.filterMap_cons, List.countP_cons, isClassDef, ih]

theorem imports_of_mem_analyze_script (m : PyModule) (e : CodeElement)
    (h : e ∈ _analyze_python .script (.ok m)) : e.imports = _get_imports m := by
  simp only [_analyze_python, pyLoop_script, List.nil_append] at h
  rw [List.mem_filterMap] at h
  obtain ⟨a, _, ha⟩ := h
  cases a <;> simp [scriptRec] at ha
  rw [← ha]
  rfl

theorem pairwise_of_const {α β : Type} (f : α → β) (c : β) :
    ∀ (l : List α), (∀ x ∈ l, f x = c) → l.Pairwise (fun a b => f a = f b) := by
  intro l
  induction l with
  | nil => intro _; exact List.Pairwise.nil
  | cons x r ih =>
    intro h
    refine List.Pairwise.cons ?_ (ih (fun y hy => h y (List.mem_cons_of_mem _ hy)))
    intro y hy
    rw [h x (List.mem_cons_self _ _), h y (List.mem_cons_of_mem _ hy)]

theorem splitLoop_spec (m : PyModule) (oracle : String → Bool) (f : String) :
    ∀ (l : List PyStmt) (r : SplitResult),
      splitLoop m oracle f l r =
        ⟨r.writes ++ (l.filter (fun c => oracle (classFilePath f (classNameOf c)))).map
            (fun c => (classFilePath f (classNameOf c), classFileContent m c)),
         r.warnings ++
            (l.filter (fun c => !(oracle (classFilePath f (classNameOf c))))).map classNameOf,
         r.fatal⟩ := by
  intro l
  induction l with
  | nil => intro r; simp [splitLoop]
  | cons c rest ih =>
    intro r
    by_cases h : oracle (classFilePath f (classNameOf c)) = true
    · simp [splitLoop, h, ih, List.filter_cons]
    · simp only [Bool.not_eq_true] at h
      simp [splitLoop, h, ih, List.filter_cons]

theorem classImportsStep_eq (cls : PyStmt) (acc : List String) (node : PyStmt) :
    classImportsStep cls acc node =
      acc ++ (if isImportStmt node && relevantPred cls node then [segOf node] else []) := by
  cases h1 : isImportStmt node <;> cases h2 : relevantPred cls node <;>
    simp only [relevantPred] at h2 <;>
    simp [classImportsStep, h1, h2]

theorem foldl_classImportsStep (cls : PyStmt) :
    ∀ (l : List PyStmt) (acc : List String),
      l.foldl (classImportsStep cls) acc =
        acc ++ ((l.filter (fun n => isImportStmt n && relevantPred cls n)).map segOf) := by
  intro l
  induction l with
  | nil => intro acc; simp
  | cons s rest ih =>
    intro acc
    rw [List.foldl_cons, ih, classImportsStep_eq]
    by_cases h : (isImportStmt s && relevantPred cls s) = true
    · simp [List.filter_cons, h]
    · simp only [Bool.not_eq_true] at h
      simp [List.filter_cons, h]

theorem get_class_imports_eq (m : PyModule) (cls : PyStmt) :
    _get_class_imports m cls =
      ((walkStmts m.body).filter (fun n => isImportStmt n && relevantPred cls n)).map segOf := by
  show (walkStmts m.body).foldl (classImportsStep cls) [] = _
  rw [foldl_classImportsStep]
  simp

theorem listImportFree_mem : ∀ (l : List PyStmt), listImportFree l = true →
    ∀ c ∈ l, stmtImportFree c = true := by
  intro l
  induction l with
  | nil => intro _ c hc; cases hc
  | cons s r ih =>
    intro h c hc
    rw [show listImportFree (s :: r) = (stmtImportFree s && listImportFree r) from rfl] at h
    rw [Bool.and_eq_true] at h
    cases hc with
    | head => exact h.1
    | tail b hc2 => exact ih h.2 c hc2

theorem stmtImportFree_parts (c : PyStmt) (h : stmtImportFree c = true) :
    isImportStmt c = false ∧ listImportFree (children c) = true := by
  cases c <;> simp [stmtImportFree, isImportStmt, children, listImportFree] at h ⊢ <;> exact h

theorem importFree_dfsNil : ∀ (n : Nat) (l : List PyStmt), listSize l ≤ n →
    listImportFree l = true → dfsImpList l = [] := by
  intro n
  induction n with
  | zero =>
    intro l h _
    cases l with
    | nil => rfl
    | cons s r =>
      exfalso
      have := stmtSize_children s
      simp [listSize] at h
      omega
  | succ k ih =>
    intro l h hf
    cases l with
    | nil => rfl
    | cons s r =>
      rw [show listImportFree (s :: r) = (stmtImportFree s && listImportFree r) from rfl,
        Bool.and_eq_true] at hf
      rw [show dfsImpList (s :: r) = dfsImpStmt s ++ dfsImpList r from rfl]
      have hsz : listSize r ≤ k := by
        have := stmtSize_children s
        simp [listSize] at h
        omega
      rw [ih r hsz hf.2, List.append_nil]
      have h1 := hf.1
      cases s with
      | classDef n0 d b l0 g =>
        have hb : listSize b ≤ k := by
          have hx := stmtSize_children (PyStmt.classDef n0 d b l0 g)
          simp [listSize, children] at h hx ⊢
          omega
        exact ih b hb (by simpa [stmtImportFree] using h1)
      | funcDef n0 b l0 g =>
        have hb : listSize b ≤ k := by
          have hx := stmtSize_children (PyStmt.funcDef n0 b l0 g)
          simp [listSize, children] at h hx ⊢
          omega
        exact ih b hb (by simpa [stmtImportFree] using h1)
      | importStmt ns l0 g => simp [stmtImportFree] at h1
      | importFrom mn ns l0 g => simp [stmtImportFree] at h1
      | other ns l0 g => rfl

theorem dfs_eq_filter : ∀ (l : List PyStmt),
    (∀ s ∈ l, listImportFree (children s) = true) →
    dfsImpList l = l.filter isImportStmt := by
  intro l
  induction l with
  | nil => intro _; rfl
  | cons s r ih =>
    intro h
    rw [show dfsImpList (s :: r) = dfsImpStmt s ++ dfsImpList r from rfl]
    rw [ih (fun x hx => h x (List.mem_cons_of_mem _ hx)), List.filter_cons]
    have hs := h s (List.mem_cons_self _ _)
    cases s with
    | classDef n0 d b l0 g =>
      simp only [children] at hs
      have : dfsImpList b = [] := importFree_dfsNil (listSize b) b (le_refl _) hs
      simp [dfsImpStmt, this, isImportStmt]
    | funcDef n0 b l0 g =>
      simp only [children] at hs
      have : dfsImpList b = [] := importFree_dfsNil (listSize b) b (le_refl _) hs
      simp [dfsImpStmt, this, isImportStmt]
    | importStmt ns l0 g => simp [dfsImpStmt, isImportStmt]
    | importFrom mn ns l0 g => simp [dfsImpStmt, isImportStmt]
    | other ns l0 g => simp [dfsImpStmt, isImportStmt]

theorem walk_filter_top : ∀ (n : Nat) (q : List PyStmt), listSize q ≤ n →
    (∀ s ∈ q, listImportFree (children s) = true) →
    (walkStmts q).filter isImportStmt = q.filter isImportStmt := by
  intro n
  induction n with
  | zero =>
    intro q h _
    cases q with
    | nil => rfl
    | cons s r =>
      exfalso
      have := stmtSize_children s
      simp [listSize] at h
      omega
  | succ k ih =>
    intro q h hf
    cases q with
    | nil => rfl
    | cons s rest =>
      rw [walkStmts_cons, List.filter_cons, List.filter_cons]
      have hch : ∀ c ∈ children s, listImportFree (children c) = true := by
        intro c hc
        have h1 := listImportFree_mem (children s)
          (hf s (List.mem_cons_self _ _)) c hc
        exact (stmtImportFree_parts c h1).2
      have hcond : ∀ x ∈ rest ++ children s, listImportFree (children x) = true := by
        intro x hx
        rcases List.mem_append.mp hx with hx1 | hx2
        · exact hf x (List.mem_cons_of_mem _ hx1)
        · exact hch x hx2
      have hsz : listSize (rest ++ children s) ≤ k := by
        have := stmtSize_children s
        simp [listSize, listSize_append] at h ⊢
        omega
      rw [ih (rest ++ children s) hsz hcond, List.filter_append]
      have hchnil : (children s).filter isImportStmt = [] := by
        rw [List.filter_eq_nil_iff]
        intro c hc
        have h1 := listImportFree_mem (children s)
          (hf s (List.mem_cons_self _ _)) c hc
        simp [(stmtImportFree_parts c h1).1]
      rw [hchnil, List.append_nil]

theorem tsScanPats_modular_ok (lines : List String) (content : String) (i : Nat)
    (line : String) :
    ∀ (ps : List (String × String)) (acc acc2 : List CodeElement),
      tsScanPats .modular lines content i line ps acc = .ok acc2 →
      ∀ p ∈ ps, containsSub line p.2 = false := by
  intro ps
  induction ps with
  | nil => intro acc acc2 _ p hp; cases hp
  | cons pp rest ih =>
    intro acc acc2 h p hp
    obtain ⟨pt, pat⟩ := pp
    by_cases hc : containsSub line pat = true
    · exfalso
      simp only [tsScanPats, hc, if_true] at h
      cases hget : lines.get? (i + 1) with
      | none => rw [hget] at h; cases h
      | some nl => rw [hget] at h; cases h
    · simp only [Bool.not_eq_true] at hc
      simp only [tsScanPats, hc, Bool.false_eq_true, if_false] at h
      cases hp with
      | head => exact hc
      | tail b hp2 => exact ih acc acc2 h p hp2

theorem tsScanLines_modular_ok (lines : List String) (content : String) :
    ∀ (ls : List String) (i : Nat) (acc acc2 : List CodeElement),
      tsScanLines .modular lines content i ls acc = .ok acc2 →
      ∀ l ∈ ls, ∀ p ∈ angularPatterns, containsSub l p.2 = false := by
  intro ls
  induction ls with
  | nil => intro i acc acc2 _ l hl; cases hl
  | cons x rest ih =>
    intro i acc acc2 h l hl
    cases hp : tsScanPats .modular lines content i x angularPatterns acc with
    | ok a2 =>
      simp only [tsScanLines, hp] at h
      cases hl with
      | head => exact tsScanPats_modular_ok lines content i x angularPatterns acc a2 hp
      | tail b hl2 => exact ih (i + 1) a2 acc2 h l hl2
    | error e =>
      simp only [tsScanLines, hp] at h
      cases h

/-- C10: in the modular sources, CodeElement has no constructor, so the
analyzer's keyword-argument construction always raises; consequently
_analyze_python there returns the empty sequence for every input (valid or
not: the exception is swallowed by its catch-all), and _analyze_typescript
raises for any content containing a signature match. -/
theorem thm_C10 :
    (∀ tree : Except String PyModule, _analyze_python .modular tree = [])
  ∧ (∀ content : String,
      ((splitLines content).any
        (fun l => angularPatterns.any (fun p => containsSub l p.2))) = true →
      ∃ er, _analyze_typescript .modular content = .error er) := by
  constructor
  · intro tree
    cases tree with
    | error e => rfl
    | ok m => exact pyLoop_modular m (walkStmts m.body) []
  · intro content hmatch
    cases hr : _analyze_typescript .modular content with
    | error er => exact ⟨er, rfl⟩
    | ok a =>
      exfalso
      have hall := tsScanLines_modular_ok (splitLines content) content
        (splitLines content) 0 [] a hr
      rw [List.any_eq_true] at hmatch
      obtain ⟨l, hl, hl2⟩ := hmatch
      rw [List.any_eq_true] at hl2
      obtain ⟨p, hpp, hp2⟩ := hl2
      have hfalse := hall l hl p hpp
      rw [hfalse] at hp2
      cases hp2

/-- Witness for C10 at a concrete TypeScript input with a signature match. -/
theorem thm_C10_witness :
    ((splitLines "@Component(\nclass X \x7b").any
      (fun l => angularPatterns.any (fun p => containsSub l p.2))) = true
  ∧ ∃ er, _analyze_typescript .modular "@Component(\nclass X \x7b" = .error er :=
  ⟨by decide, thm_C10.2 "@Component(\nclass X \x7b" (by decide)⟩

/-- C1: for every (embedded) syntactically valid Python source with N
class-definition nodes, top-level and nested, the script variant returns
exactly N records, each of kind "class"; but the modular variant — cited by
the same claim — returns the empty sequence even for the one-class demo
module, since its CodeElement construction raises and the exception is
swallowed, so the claim fails on the modular code. -/
theorem thm_C1 :
    (∀ m : PyModule,
      (_analyze_python .script (.ok m)).length = listClassCount m.body
      ∧ ∀ e ∈ _analyze_python .script (.ok m), e.type = "class")
  ∧ _analyze_python .modular (.ok demoMod) = []
  ∧ listClassCount demoMod.body = 1 := by
  refine ⟨?_, pyLoop_modular demoMod (walkStmts demoMod.body) [], by decide⟩
  intro m
  constructor
  · rw [show _analyze_python .script (.ok m) = pyLoop .script m (walkStmts m.body) [] from rfl]
    rw [pyLoop_script, List.nil_append, length_filterMap_scriptRec]
    exact walkStmts_classCount (listSize m.body) m.body (le_refl _)
  · intro e he
    rw [show _analyze_python .script (.ok m) = pyLoop .script m (walkStmts m.body) [] from rfl,
      pyLoop_script, List.nil_append, List.mem_filterMap] at he
    obtain ⟨a, _, ha⟩ := he
    cases a <;> simp [scriptRec] at ha
    rw [← ha]
    rfl

/-- Witness for C1 at the one-class demo module. -/
theorem thm_C1_witness :
    (_analyze_python .script (.ok demoMod)).length = 1
  ∧ (⟨"A", "class", [], [], [], 1, []⟩ : CodeElement).type = "class" :=
  ⟨((thm_C1.1 demoMod).1).trans (by decide),
   (thm_C1.1 demoMod).2 ⟨"A", "class", [], [], [], 1, []⟩ (by decide)⟩

/-- C4: for every syntactically valid Python file analyzed in one call, in
either variant, the imports field is pairwise equal across all returned
records (each record carries the whole file's import list). -/
theorem thm_C4 : ∀ (v : Variant) (m : PyModule),
    (_analyze_python v (.ok m)).Pairwise (fun a b => a.imports = b.imports) := by
  intro v m
  cases v with
  | modular =>
    rw [show _analyze_python .modular (.ok m) = pyLoop .modular m (walkStmts m.body) [] from rfl,
      pyLoop_modular]
    exact List.Pairwise.nil
  | script =>
    exact pairwise_of_const (fun e => e.imports) (_get_imports m) _
      (fun e he => imports_of_mem_analyze_script m e he)

/-- C3 (failing input): for the one-line TypeScript content "@Component(" —
a signature match on the final line — both variants raise IndexError from the
unguarded lines[i+1] lookup, instead of producing no record as the claim
requires. -/
theorem thm_C3 :
    _analyze_typescript .script "@Component(" = .error .indexError
  ∧ _analyze_typescript .modular "@Component(" = .error .indexError :=
  ⟨rfl, rfl⟩

/-- C5: on the TypeScript content "@Component(" followed by the line
"export class Widget {", the script variant yields exactly one record with
kind "component" and name "Widget"; the modular variant — cited by the same
claim — instead raises TypeError from the CodeElement construction, so the
claim fails on the modular code. -/
theorem thm_C5 :
    _analyze_typescript .script "@Component(\nexport class Widget \x7b" =
      .ok [⟨"Widget", "component", ["@Component("], [], [], 1, []⟩]
  ∧ _analyze_typescript .modular "@Component(\nexport class Widget \x7b" =
      .error .typeError :=
  ⟨rfl, rfl⟩

/-- Counterexample to C2 as stated: a .js input does not get a possibly-empty
result — analyze_file raises AttributeError in both variants, because the
dispatch calls the undefined method _analyze_javascript. -/
theorem thm_C2_cex :
    analyze_file .script "x.js" (.ok "") (fun _ => .error "unused")
      = .error .attributeError
  ∧ analyze_file .modular "x.js" (.ok "") (fun _ => .error "unused")
      = .error .attributeError :=
  ⟨rfl, rfl⟩

/-- C2 (amended): only the Python parse failure is contained — it yields an
empty result without raising.  Faults escape everywhere else: an unreadable
file propagates the read error, a .js/.jsx input raises AttributeError
(undefined _analyze_javascript), and a TypeScript signature match on the final
line raises IndexError. -/
theorem thm_C2_amended :
    (∀ (v : Variant) (p : String) (parse : String → Except String PyModule),
      analyze_file v p (.error ()) parse = .error .ioError)
  ∧ (∀ (v : Variant) (p content e : String) (parse : String → Except String PyModule),
      splitextExt p = ".py" → parse content = .error e →
      analyze_file v p (.ok content) parse = .ok [])
  ∧ (∀ (v : Variant) (p content : String) (parse : String → Except String PyModule),
      splitextExt p = ".js" ∨ splitextExt p = ".jsx" →
      analyze_file v p (.ok content) parse = .error .attributeError)
  ∧ (∀ (v : Variant) (p : String) (parse : String → Except String PyModule),
      splitextExt p = ".ts" →
      analyze_file v p (.ok "@Component(") parse = .error .indexError) := by
  refine ⟨fun v p parse => rfl, ?_, ?_, ?_⟩
  · intro v p content e parse hext hparse
    simp only [analyze_file, hext, hparse, if_true]
    rfl
  · intro v p content parse hext
    rcases hext with h | h <;> simp [analyze_file, h]
  · intro v p parse hext
    simp only [analyze_file, hext]
    rw [if_neg (by decide), if_pos (by decide)]
    cases v <;> rfl

/-- Witness for C2 (amended) at concrete paths and contents. -/
theorem thm_C2_amended_witness :
    splitextExt "a.py" = ".py"
  ∧ analyze_file .script "a.py" (.ok "(") (fun _ => .error "bad") = .ok []
  ∧ splitextExt "w.ts" = ".ts"
  ∧ analyze_file .modular "w.ts" (.ok "@Component(") (fun _ => .error "unused")
      = .error .indexError :=
  ⟨by decide,
   thm_C2_amended.2.1 .script "a.py" "(" "bad" (fun _ => .error "bad") (by decide) rfl,
   by decide,
   thm_C2_amended.2.2.2 .modular "w.ts" (fun _ => .error "unused") (by decide)⟩

/-- C6: when the splitter's input is not syntactically valid Python, the whole
operation aborts with the failure reported and no file is written. -/
theorem thm_C6 : ∀ (f content e : String) (parse : String → Except String PyModule)
    (oracle : String → Bool),
    pyEndsWith f ".py" = true → parse content = .error e →
    split_classes f (.ok content) parse oracle = ⟨[], [], some e⟩ := by
  intro f content e parse oracle h1 h2
  simp only [split_classes, h1, h2, if_true]

/-- Witness for C6 at a concrete unparsable file. -/
theorem thm_C6_witness :
    split_classes "a.py" (.ok "(") (fun _ => .error "bad syntax") (fun _ => true)
      = ⟨[], [], some "bad syntax"⟩ :=
  thm_C6 "a.py" "(" "bad syntax" (fun _ => .error "bad syntax") (fun _ => true)
    (by decide) rfl

/-- C7: during a split of a valid multi-class file, every class whose own
write succeeds gets its file written even when other classes' writes fail, and
every class whose write fails is reported as a warning — the per-class
try/except keeps the loop going. -/
theorem thm_C7 : ∀ (f content : String) (parse : String → Except String PyModule)
    (oracle : String → Bool) (m : PyModule) (c : PyStmt),
    pyEndsWith f ".py" = true → parse content = .ok m →
    c ∈ (walkStmts m.body).filter isClassDef →
    (oracle (classFilePath f (classNameOf c)) = true →
      (classFilePath f (classNameOf c), classFileContent m c) ∈
        (split_classes f (.ok content) parse oracle).writes)
    ∧ (oracle (classFilePath f (classNameOf c)) = false →
      classNameOf c ∈ (split_classes f (.ok content) parse oracle).warnings) := by
  intro f content parse oracle m c h1 h2 hc
  have hsplit : split_classes f (.ok content) parse oracle =
      splitLoop m oracle f ((walkStmts m.body).filter isClassDef) ⟨[], [], none⟩ := by
    simp only [split_classes, h1, h2, if_true]
  rw [hsplit, splitLoop_spec]
  constructor
  · intro ho
    simp only [List.nil_append]
    exact List.mem_map_of_mem _ (List.mem_filter.mpr ⟨hc, by simp [ho]⟩)
  · intro ho
    simp only [List.nil_append]
    exact List.mem_map_of_mem _ (List.mem_filter.mpr ⟨hc, by simp [ho]⟩)

/-- Witness for C7: in the two-class module, the write for class A fails while
class B's file is still written, and A is reported. -/
theorem thm_C7_witness :
    ("/tmp/mod_b.py", classFileContent c7Mod c7ClsB) ∈
      (split_classes "/tmp/mod.py" (.ok "x") (fun _ => .ok c7Mod) c7Oracle).writes
  ∧ "A" ∈ (split_classes "/tmp/mod.py" (.ok "x") (fun _ => .ok c7Mod) c7Oracle).warnings := by
  have hfb : (walkStmts c7Mod.body).filter isClassDef = [c7ClsA, c7ClsB] := rfl
  constructor
  · exact (thm_C7 "/tmp/mod.py" "x" (fun _ => .ok c7Mod) c7Oracle c7Mod c7ClsB
      (by decide) rfl
      (by rw [hfb]; exact List.mem_cons_of_mem _ (List.mem_cons_self _ _))).1 (by decide)
  · exact (thm_C7 "/tmp/mod.py" "x" (fun _ => .ok c7Mod) c7Oracle c7Mod c7ClsA
      (by decide) rfl (by rw [hfb]; exact List.mem_cons_self _ _)).2 (by decide)

/-- Counterexample to C8 as stated: with an import nested inside the class
(line 2) and a top-level import after it (line 3), both relevant, the code
emits them in breadth-first walk order — top-level first — which is not file
order. -/
theorem thm_C8_cex :
    _get_class_imports c8cexMod c8cexCls = ["import a", "import b"]
  ∧ fileOrderRelevantImports c8cexMod c8cexCls = ["import b", "import a"]
  ∧ _get_class_imports c8cexMod c8cexCls ≠ fileOrderRelevantImports c8cexMod c8cexCls :=
  ⟨rfl, rfl, by decide⟩

/-- C8 (amended): the relevant-imports subset contains an import statement
(found anywhere by the tree walk) iff one of its imported names occurs as a
literal substring of the class's extracted source text, kept in breadth-first
tree-walk order; this equals file order whenever every import of the file is
top-level. -/
theorem thm_C8_amended : ∀ (m : PyModule) (cls : PyStmt),
    _get_class_imports m cls =
      ((walkStmts m.body).filter (fun n => isImportStmt n && relevantPred cls n)).map segOf
  ∧ (topLevelOnlyImports m = true →
      _get_class_imports m cls = fileOrderRelevantImports m cls) := by
  intro m cls
  refine ⟨get_class_imports_eq m cls, ?_⟩
  intro htop
  rw [get_class_imports_eq m cls]
  have hcond : ∀ s ∈ m.body, listImportFree (children s) = true := by
    rw [show topLevelOnlyImports m = m.body.all (fun s => listImportFree (children s))
      from rfl, List.all_eq_true] at htop
    exact htop
  have h1 : (walkStmts m.body).filter (fun n => isImportStmt n && relevantPred cls n)
      = ((walkStmts m.body).filter isImportStmt).filter (fun n => relevantPred cls n) := by
    rw [List.filter_filter]
    exact List.filter_congr (fun a _ => by rw [Bool.and_comm])
  rw [h1, walk_filter_top (listSize m.body) m.body (le_refl _) hcond,
    ← dfs_eq_filter m.body hcond]
  rfl

/-- Witness for C8 (amended) on a module whose imports are all top-level. -/
theorem thm_C8_amended_witness :
    topLevelOnlyImports c8wMod = true
  ∧ _get_class_imports c8wMod c8wCls = fileOrderRelevantImports c8wMod c8wCls :=
  ⟨by decide, (thm_C8_amended c8wMod c8wCls).2 (by decide)⟩

/-- Counterexample to C9 as stated: on the nested-import module the written
content prepends the relevant imports in walk order, not file order, so it
differs from the spec-worded content. -/
theorem thm_C9_cex :
    classFileContent c9cexMod c9cexCls = "import s\nimport y\n\nclass K:\n    import y"
  ∧ fileOrderClassContent c9cexMod c9cexCls = "import y\nimport s\n\nclass K:\n    import y"
  ∧ classFileContent c9cexMod c9cexCls ≠ fileOrderClassContent c9cexMod c9cexCls :=
  ⟨rfl, rfl, by decide⟩

/-- C9 (amended): each written file is the relevant imports (in tree-walk
order — file order when all imports are top-level, see C8), one per line,
then one blank line, then the class's original source segment verbatim:
formally the content is the import block followed by the segment character for
character, so dropping the block recovers the segment exactly. -/
theorem thm_C9_amended : ∀ (m : PyModule) (cls : PyStmt),
    classFileContent m cls =
      pyJoin "\n" (_get_class_imports m cls ++ [""]) ++ "\n" ++ segOf cls
  ∧ (classFileContent m cls).data.drop
      ((pyJoin "\n" (_get_class_imports m cls ++ [""]) ++ "\n").data.length)
      = (segOf cls).data
  ∧ (_get_class_imports m cls ≠ [] →
      classFileContent m cls =
        pyJoin "\n" (_get_class_imports m cls) ++ "\n" ++ "\n" ++ segOf cls) := by
  intro m cls
  have hne : _get_class_imports m cls ++ [""] ≠ [] := by simp
  have h0 : classFileContent m cls =
      pyJoin "\n" (_get_class_imports m cls ++ [""]) ++ "\n" ++ segOf cls := by
    rw [show classFileContent m cls =
        pyJoin "\n" (_get_class_imports m cls ++ ["", segOf cls]) from rfl]
    rw [show _get_class_imports m cls ++ ["", segOf cls]
        = (_get_class_imports m cls ++ [""]) ++ [segOf cls] from by simp]
    exact pyJoin_append_last "\n" _ _ hne
  refine ⟨h0, ?_, ?_⟩
  · rw [h0, string_data_append
      (pyJoin "\n" (_get_class_imports m cls ++ [""]) ++ "\n") (segOf cls),
      List.drop_left]
  · intro hne2
    rw [h0, pyJoin_append_last "\n" _ "" hne2, string_append_empty]

/-- Witness for C9 (amended) on a module with one relevant top-level import. -/
theorem thm_C9_amended_witness :
    _get_class_imports c9wMod c9wCls ≠ []
  ∧ classFileContent c9wMod c9wCls =
      pyJoin "\n" (_get_class_imports c9wMod c9wCls) ++ "\n" ++ "\n" ++ segOf c9wCls :=
  ⟨by decide, (thm_C9_amended c9wMod c9wCls).2.2 (by decide)⟩
